import Mathlib

/-!
Verification of the Project Gaia volatility-monitoring core.

This file gives a shallow embedding, over exact rationals, of the parts of
the repository that the monitoring claims are about:

* `core/monitor.py` — `Monitor.calculate_volatility`, `Monitor.check_threshold`,
  `Monitor.is_in_cooldown`, `Monitor.check_volatility`;
* `database/models.py` — `DatabaseManager.save_price`, `DatabaseManager.get_last_alert`;
* `core/fetcher.py` — `DataFetcher.fetch_crypto_price`,
  `DataFetcher.fetch_traditional_price`, `DataFetcher.fetch_asset`,
  `DataFetcher.fetch_all`.

Modelling conventions:

* Python floats are modelled as `ℚ` (the claims are arithmetic identities,
  none hinges on floating-point rounding).
* Python dicts with possibly-missing keys become structures with `Option`
  fields; `d.get(k, default)` becomes `(field).getD default`, and a bare
  `d[k]` read on an `Option` field whose absence would raise `KeyError`
  is matched explicitly, the `none` case following the `except` handler
  of the source.
* The SQLite store becomes an explicit `DB` value holding the two
  append-only relations, newest row first.  A store operation that the
  source wraps in `try/except` takes an extra `Bool` failure flag that
  selects the `except` branch (`save_price` logs and drops the row,
  `get_last_alert` logs and returns `None`).
* `time.time()` and `datetime.now()` become an explicit `now : ℚ`
  parameter carried in `StepEnv`.
-/

namespace Gaia

/-- One entry of `assets.json` as consumed by `Monitor`: the source reads
`asset['name']` (required key), `asset.get('threshold', 0.05)` and
`asset.get('level', 'medium')`, so the latter two are optional. -/
structure Asset where
  name : String
  threshold : Option ℚ
  level : Option String
deriving DecidableEq

/-- One value of the `price_data` map handed to `Monitor.check_volatility`:
the source reads `data['price']` (a missing key raises `KeyError`, caught by
the per-symbol handler, hence `Option`) and `data.get('volume_24h', 0)`. -/
structure PriceData where
  price : Option ℚ
  volume_24h : Option ℚ
deriving DecidableEq

/-- A row of the `price_history` relation as inserted by
`DatabaseManager.save_price`. -/
structure PriceRow where
  symbol : String
  price : ℚ
  volume : ℚ
deriving DecidableEq

/-- A row of the `event_log` relation; `volatility` is a `NOT NULL` column,
read back by `Monitor.is_in_cooldown` via `last_alert_data.get('volatility', 0)`. -/
structure EventRow where
  symbol : String
  price : ℚ
  volatility : ℚ
  timestamp : ℚ
deriving DecidableEq

/-- The SQLite store of `database/models.py`: the two append-only relations,
kept newest row first (inserts prepend; the SQL queries read
`ORDER BY timestamp DESC`). -/
structure DB where
  price_history : List PriceRow
  event_log : List EventRow
deriving DecidableEq

/-- `DatabaseManager.save_price` (models.py lines 86-104): inserts one row
into `price_history`; any exception is caught and logged, so a failing call
(`fail = true`) leaves the store unchanged and raises nothing. -/
def save_price (fail : Bool) (db : DB) (symbol : String) (price : ℚ) (volume : ℚ) : DB :=
  if fail then db
  else { db with price_history := ⟨symbol, price, volume⟩ :: db.price_history }

/-- `DatabaseManager.get_last_alert` (models.py lines 161-185): the newest
`event_log` row for `symbol`, or `None`; any exception from the query is
caught and logged and `None` is returned (`fail = true` selects that branch). -/
def get_last_alert (fail : Bool) (db : DB) (symbol : String) : Option EventRow :=
  if fail then none
  else db.event_log.find? (fun e => e.symbol == symbol)

/-- The alert dict built in `Monitor.check_volatility` (monitor.py lines 123-132). -/
structure Alert where
  symbol : String
  name : String
  current_price : ℚ
  last_price : ℚ
  volatility : ℚ
  timestamp : ℚ
  level : String
  threshold : ℚ
deriving DecidableEq

/-- The `Monitor` object state: `self.assets` (dict keyed by symbol),
`self.cooldown_period = config.get('AI_COOLDOWN_PERIOD', 1800)`,
and the two process-lifetime maps `self.last_prices`, `self.last_alert_time`. -/
structure MonitorState where
  assets : String → Option Asset
  cooldown_period : ℚ
  last_prices : String → Option ℚ
  last_alert_time : String → Option ℚ

/-- Pointwise update of a dict modelled as a function, for
`self.last_prices[symbol] = ...` and `self.last_alert_time[symbol] = ...`. -/
def mapUpdate {α : Type} (f : String → Option α) (k : String) (v : α) : String → Option α :=
  fun s => if s = k then some v else f s

/-- `Monitor.calculate_volatility` (monitor.py lines 35-48). -/
def calculate_volatility (current_price : ℚ) (last_price : ℚ) : ℚ :=
  if last_price = 0 then 0
  else (current_price - last_price) / last_price

/-- `Monitor.check_threshold` (monitor.py lines 50-66): `False` for a symbol
not among the configured assets, else `abs(volatility) >= asset.get('threshold', 0.05)`. -/
def check_threshold (assets : String → Option Asset) (symbol : String) (volatility : ℚ) : Bool :=
  match assets symbol with
  | none => false
  | some asset => decide ((asset.threshold).getD (5/100) ≤ |volatility|)

/-- `Monitor.is_in_cooldown` (monitor.py lines 68-96).  Python truthiness:
`if not last_alert` also takes the early exit when the stored timestamp is
`0.0`, hence the explicit zero test. -/
def is_in_cooldown (m : MonitorState) (db : DB) (lookupFail : Bool) (now : ℚ)
    (symbol : String) (volatility : ℚ) : Bool :=
  match m.last_alert_time symbol with
  | none => false
  | some last_alert =>
    if last_alert = 0 then false
    else
      match get_last_alert lookupFail db symbol with
      | none => false
      | some last_alert_data =>
        if |last_alert_data.volatility| * 2 ≤ |volatility| then false
        else decide (now - last_alert < m.cooldown_period)

/-- The ambient effects of one evaluation pass: the current clock reading and
the failure flags of the three store calls a symbol can make (`lookupFail`
for `get_last_alert`; `saveFailAlert` for the `save_price` call inside the
alert branch at monitor.py line 140; `saveFailMain` for the unconditional
`save_price` call at line 150). -/
structure StepEnv where
  now : ℚ
  lookupFail : Bool
  saveFailAlert : Bool
  saveFailMain : Bool

/-- The body of the `for symbol, data in price_data.items()` loop of
`Monitor.check_volatility` (monitor.py lines 110-157) for one symbol.
Returns the new monitor state, the new store, and the alerts appended for
this symbol.  The `data.price = none` case is the `KeyError` from
`data['price']`, caught by the per-symbol `except`: the symbol is skipped
with no state change.  The inner `m.assets symbol = none` case mirrors the
`KeyError` that `self.assets[symbol]['name']` would raise (unreachable,
since `check_threshold` already demanded the asset).  When the alert fires
the store is written twice, exactly as in the source: once in the alert
branch, once unconditionally. -/
def process_symbol (env : StepEnv) (m : MonitorState) (db : DB)
    (symbol : String) (data : PriceData) : MonitorState × DB × List Alert :=
  match data.price with
  | none => (m, db, [])
  | some current_price =>
    let last_price := (m.last_prices symbol).getD current_price
    let volatility := calculate_volatility current_price last_price
    let volume := (data.volume_24h).getD 0
    if check_threshold m.assets symbol volatility
        && !(is_in_cooldown m db env.lookupFail env.now symbol volatility) then
      match m.assets symbol with
      | none => (m, db, [])
      | some asset =>
        ({ m with
            last_prices := mapUpdate m.last_prices symbol current_price,
            last_alert_time := mapUpdate m.last_alert_time symbol env.now },
         save_price env.saveFailMain
           (save_price env.saveFailAlert db symbol current_price volume)
           symbol current_price volume,
         [{ symbol := symbol
            name := asset.name
            current_price := current_price
            last_price := last_price
            volatility := volatility
            timestamp := env.now
            level := (asset.level).getD "medium"
            threshold := (asset.threshold).getD (5/100) }])
    else
      ({ m with last_prices := mapUpdate m.last_prices symbol current_price },
       save_price env.saveFailMain db symbol current_price volume,
       [])

/-- `Monitor.check_volatility` (monitor.py lines 98-159): fold of
`process_symbol` over the price map in iteration (insertion) order,
collecting the alerts in order. -/
def check_volatility (env : StepEnv) (m : MonitorState) (db : DB) :
    List (String × PriceData) → MonitorState × DB × List Alert
  | [] => (m, db, [])
  | (symbol, data) :: rest =>
    let step := process_symbol env m db symbol data
    let tail := check_volatility env step.1 step.2.1 rest
    (tail.1, tail.2.1, step.2.2 ++ tail.2.2)

/-- The result dict built by the source adapters in `core/fetcher.py`
(`fetch_crypto_price` lines 66-75, `fetch_traditional_price` lines 110-119):
the common shape both normalize into. -/
structure FetchResult where
  symbol : String
  price : ℚ
  change_24h : ℚ
  high_24h : ℚ
  low_24h : ℚ
  volume_24h : ℚ
  source : String
deriving DecidableEq

/-- A ccxt ticker as read by `fetch_crypto_price`: `ticker['last']`,
`ticker['high']`, `ticker['low']`, `ticker['baseVolume']` are indexed
directly; `ticker.get('percentage', 0)` is optional. -/
structure Ticker where
  last : ℚ
  percentage : Option ℚ
  high : ℚ
  low : ℚ
  baseVolume : ℚ
deriving DecidableEq

/-- One daily row of the yfinance history frame read by
`fetch_traditional_price`: the `Open`, `Close`, `High`, `Low` columns, and
`Volume` which the source guards with `if 'Volume' in latest`. -/
structure Bar where
  openPrice : ℚ
  closePrice : ℚ
  highPrice : ℚ
  lowPrice : ℚ
  volume : Option ℚ
deriving DecidableEq

/-- `DataFetcher.fetch_crypto_price` (fetcher.py lines 43-79): builds the
result dict from the exchange ticker; a missing exchange or a raising
`fetch_ticker` call ends in the `except` handler, which returns `None`
(modelled by `ticker = none`). -/
def fetch_crypto_price (exchange_name : String) (symbol : String)
    (ticker : Option Ticker) : Option FetchResult :=
  match ticker with
  | none => none
  | some t =>
    some { symbol := symbol
           price := t.last
           change_24h := (t.percentage).getD 0
           high_24h := t.high
           low_24h := t.low
           volume_24h := t.baseVolume
           source := exchange_name }

/-- `DataFetcher.fetch_traditional_price` (fetcher.py lines 81-123) acting on
the fetched daily history `info` (oldest row first, as pandas returns it;
`info.iloc[-1]` is the last element, `info.iloc[-2]` the one before).  An
empty frame raises `ValueError`, caught by the handler which returns `None`.
With at least two rows the change is computed from the two most recent
closes, guarded against a zero previous close; with a single row it is
computed from that day's open and close, guarded against a zero open. -/
def fetch_traditional_price (symbol : String) (info : List Bar) : Option FetchResult :=
  match info.getLast? with
  | none => none
  | some latest =>
    let change_24h :=
      if 2 ≤ info.length then
        match info[info.length - 2]? with
        | none => 0
        | some prev =>
          if prev.closePrice = 0 then 0
          else (latest.closePrice - prev.closePrice) / prev.closePrice
      else
        if latest.openPrice = 0 then 0
        else (latest.closePrice - latest.openPrice) / latest.openPrice
    some { symbol := symbol
           price := latest.closePrice
           change_24h := change_24h
           high_24h := latest.highPrice
           low_24h := latest.lowPrice
           volume_24h := (latest.volume).getD 0
           source := "yfinance" }

/-- What the upstream of one instrument yields during a cycle, resolving the
dispatch of `DataFetcher.fetch_asset` (fetcher.py lines 125-150): a ccxt
ticker when the configured source is a known exchange, a yfinance history
frame when the source is `yfinance`, or no adapter at all (any other source
string), in which case `fetch_asset` raises `ValueError`. -/
inductive SourceResponse where
  | cryptoTicker (exchange_name : String) (ticker : Option Ticker)
  | yfinanceInfo (info : List Bar)
  | unsupported
deriving DecidableEq

/-- `DataFetcher.fetch_asset` (fetcher.py lines 125-150) applied to the
instrument's symbol and its upstream response.  A raised `ValueError`
(unsupported source) is reified as `Except.error`, exactly what
`asyncio.gather(..., return_exceptions=True)` hands back to `fetch_all`. -/
def fetch_asset (symbol : String) (resp : SourceResponse) : Except Unit (Option FetchResult) :=
  match resp with
  | .cryptoTicker exchange_name ticker => .ok (fetch_crypto_price exchange_name symbol ticker)
  | .yfinanceInfo info => .ok (fetch_traditional_price symbol info)
  | .unsupported => .error ()

/-- Python dict assignment `price_data[result['symbol']] = result` on a dict
modelled as an insertion-ordered association list: overwrite in place if the
key exists, else append. -/
def dictInsert (d : List (String × FetchResult)) (k : String) (v : FetchResult) :
    List (String × FetchResult) :=
  if d.any (fun p => p.1 == k) then
    d.map (fun p => if p.1 == k then (k, v) else p)
  else
    d ++ [(k, v)]

/-- The result-collection loop of `DataFetcher.fetch_all` (fetcher.py lines
168-176): walk the instruments paired with their fetch outcomes; an outcome
that is an exception is logged and skipped, a falsy (`None`) result is
skipped, a dict result is stored under its `symbol` key. -/
def fetch_all_go (price_data : List (String × FetchResult)) :
    List (String × SourceResponse) → List (String × FetchResult)
  | [] => price_data
  | p :: rest =>
    match fetch_asset p.1 p.2 with
    | .error _ => fetch_all_go price_data rest
    | .ok none => fetch_all_go price_data rest
    | .ok (some r) => fetch_all_go (dictInsert price_data r.symbol r) rest

/-- `DataFetcher.fetch_all` (fetcher.py lines 152-177): one task per
instrument, gathered with `return_exceptions=True` (so no exception escapes),
then the collection loop starting from the empty dict.  `batch` pairs each
instrument's symbol with its upstream response for this cycle. -/
def fetch_all (batch : List (String × SourceResponse)) : List (String × FetchResult) :=
  fetch_all_go [] batch

/-- Did this instrument's fetch produce a sample this cycle (neither a raised
exception nor a `None` result)? -/
def fetchSucceeds (p : String × SourceResponse) : Bool :=
  match fetch_asset p.1 p.2 with
  | .ok (some _) => true
  | _ => false

/-- A sample configured instrument: `BTC/USDT` with threshold `0.05`. -/
def btcAsset : Asset := { name := "Bitcoin", threshold := some (5/100), level := some "high" }

/-- A one-instrument asset map holding only [[btcAsset]] under `BTC/USDT`. -/
def btcAssets : String → Option Asset :=
  fun s => if s = "BTC/USDT" then some btcAsset else none

/-- An empty store. -/
def db0 : DB := { price_history := [], event_log := [] }

/-- A healthy environment: clock at 10000, no store failures. -/
def env0 : StepEnv :=
  { now := 10000, lookupFail := false, saveFailAlert := false, saveFailMain := false }

/-- A monitor that has already seen `BTC/USDT` at price 100 and has never
alerted. -/
def m0 : MonitorState :=
  { assets := btcAssets
    cooldown_period := 1800
    last_prices := fun s => if s = "BTC/USDT" then some 100 else none
    last_alert_time := fun _ => none }

/-- A fresh sample at price 106 (a +6 percent move from 100). -/
def d106 : PriceData := { price := some 106, volume_24h := some 50 }

-- General helper lemmas shared by the claim proofs.

theorem mapUpdate_self {α : Type} (f : String → Option α) (k : String) (v : α) :
    mapUpdate f k v k = some v := by
  simp [mapUpdate]

theorem mapUpdate_ne {α : Type} (f : String → Option α) (k : String) (v : α)
    (s : String) (h : s ≠ k) : mapUpdate f k v s = f s := by
  simp [mapUpdate, h]

theorem calculate_volatility_self (p : ℚ) : calculate_volatility p p = 0 := by
  unfold calculate_volatility
  by_cases h : p = 0
  · simp [h]
  · simp [h]

/-- C4: for all pairs `(previous, current)` with `previous ≠ 0`, the computed
volatility equals `(current - previous) / previous`, and for a positive
previous price its sign matches the direction of movement; when
`previous = 0` the computed volatility is `0`. -/
theorem calculate_volatility_spec (last_price current_price : ℚ) :
    (last_price ≠ 0 →
      calculate_volatility current_price last_price
        = (current_price - last_price) / last_price)
    ∧ (last_price = 0 → calculate_volatility current_price last_price = 0)
    ∧ (0 < last_price →
        ((0 < calculate_volatility current_price last_price ↔ last_price < current_price)
         ∧ (calculate_volatility current_price last_price < 0 ↔ current_price < last_price))) := by
  refine ⟨fun h => by rw [calculate_volatility, if_neg h],
          fun h => by rw [calculate_volatility, if_pos h],
          fun hp => ?_⟩
  have h0 : last_price ≠ 0 := ne_of_gt hp
  rw [calculate_volatility, if_neg h0]
  constructor
  · rw [lt_div_iff₀ hp, zero_mul, sub_pos]
  · rw [div_lt_iff₀ hp, zero_mul, sub_neg]

theorem calculate_volatility_spec_witness :
    calculate_volatility 106 100 = (106 - 100) / 100 :=
  (calculate_volatility_spec 100 106).1 (by norm_num)

/-- C8: the threshold check is on the absolute value of the volatility: it
gives the same verdict on `v` and `-v` for every asset map and symbol; in
particular with a configured threshold of `0.05` it triggers identically for
`+0.051` and `-0.051`. -/
theorem check_threshold_abs_spec (assets : String → Option Asset) (symbol : String) (v : ℚ) :
    check_threshold assets symbol (-v) = check_threshold assets symbol v
    ∧ (∀ a, assets symbol = some a → (a.threshold).getD (5/100) = 5/100 →
        check_threshold assets symbol (51/1000) = true
        ∧ check_threshold assets symbol (-(51/1000)) = true) := by
  constructor
  · unfold check_threshold
    cases h : assets symbol with
    | none => rfl
    | some a => simp [abs_neg]
  · intro a ha h5
    unfold check_threshold
    rw [ha]
    constructor
    · show decide ((a.threshold).getD (5/100) ≤ |(51/1000 : ℚ)|) = true
      simp only [decide_eq_true_eq]
      rw [h5]
      norm_num [abs_of_nonneg]
    · show decide ((a.threshold).getD (5/100) ≤ |(-(51/1000) : ℚ)|) = true
      simp only [decide_eq_true_eq]
      rw [h5]
      norm_num [abs_neg, abs_of_nonneg]

theorem check_threshold_abs_spec_witness :
    check_threshold btcAssets "BTC/USDT" (51/1000) = true
    ∧ check_threshold btcAssets "BTC/USDT" (-(51/1000)) = true :=
  (check_threshold_abs_spec btcAssets "BTC/USDT" 0).2 btcAsset
    (by simp [btcAssets]) (by simp [btcAsset])

/-- C3: for a symbol with no entry in `last_prices`, the first observed
sample is compared against itself, so the computed volatility is `0`, and —
as long as the configured threshold (if the symbol is configured at all) is
strictly positive — no alert is emitted for it. -/
theorem first_observation_spec (env : StepEnv) (m : MonitorState) (db : DB)
    (symbol : String) (data : PriceData) (p : ℚ)
    (hfresh : m.last_prices symbol = none)
    (hprice : data.price = some p)
    (hthr : ∀ a, m.assets symbol = some a → 0 < (a.threshold).getD (5/100)) :
    calculate_volatility p ((m.last_prices symbol).getD p) = 0
    ∧ (process_symbol env m db symbol data).2.2 = [] := by
  have hvol : calculate_volatility p ((m.last_prices symbol).getD p) = 0 := by
    rw [hfresh]
    exact calculate_volatility_self p
  refine ⟨hvol, ?_⟩
  have hct : check_threshold m.assets symbol 0 = false := by
    unfold check_threshold
    cases h : m.assets symbol with
    | none => rfl
    | some a =>
      have ht := hthr a h
      simp only [abs_zero, decide_eq_false_iff_not, not_le]
      exact ht
  simp only [process_symbol, hprice, hfresh, Option.getD_none] at hvol ⊢
  rw [calculate_volatility_self p, hct]
  simp

theorem first_observation_spec_witness :
    calculate_volatility 106 ((Option.none).getD 106) = 0
    ∧ (process_symbol env0
        { m0 with last_prices := fun _ => none } db0 "BTC/USDT" d106).2.2 = [] := by
  have h := first_observation_spec env0 { m0 with last_prices := fun _ => none } db0
    "BTC/USDT" d106 106 rfl rfl
    (by
      intro a ha
      simp only [m0, btcAssets, if_pos rfl] at ha
      rw [show a = btcAsset from by injection ha.symm]
      norm_num [btcAsset])
  exact h

/-- C2: the cooldown verdict of `is_in_cooldown`: (a) when the in-memory
last-alert timestamp exists (and is a real, nonzero clock reading), the
event log holds a last event for the symbol, the new volatility has not
doubled the stored one, and less than `cooldown_period` has elapsed, the
alert is suppressed; (b) once the magnitude of the volatility reaches twice
that of the last stored event, the alert is never suppressed, whatever the
elapsed time; (c) with no in-memory last-alert timestamp (fresh process) the
alert is never suppressed; (d) with no stored event for the symbol the alert
is never suppressed. -/
theorem cooldown_policy_spec (m : MonitorState) (db : DB) (fail : Bool) (now : ℚ)
    (symbol : String) (v : ℚ) :
    (∀ t e, m.last_alert_time symbol = some t → t ≠ 0 →
        get_last_alert fail db symbol = some e →
        |v| < |e.volatility| * 2 → now - t < m.cooldown_period →
        is_in_cooldown m db fail now symbol v = true)
    ∧ (∀ e, get_last_alert fail db symbol = some e → |e.volatility| * 2 ≤ |v| →
        is_in_cooldown m db fail now symbol v = false)
    ∧ (m.last_alert_time symbol = none → is_in_cooldown m db fail now symbol v = false)
    ∧ (get_last_alert fail db symbol = none → is_in_cooldown m db fail now symbol v = false) := by
  refine ⟨?_, ?_, ?_, ?_⟩
  · intro t e ht ht0 he hesc helapsed
    unfold is_in_cooldown
    rw [ht]
    simp only [if_neg ht0, he]
    rw [if_neg (not_le.mpr hesc)]
    simpa using helapsed
  · intro e he hesc
    unfold is_in_cooldown
    cases ht : m.last_alert_time symbol with
    | none => rfl
    | some t =>
      by_cases ht0 : t = 0
      · simp [ht0]
      · simp only [if_neg ht0, he]
        rw [if_pos hesc]
  · intro ht
    unfold is_in_cooldown
    rw [ht]
  · intro he
    unfold is_in_cooldown
    cases ht : m.last_alert_time symbol with
    | none => rfl
    | some t =>
      by_cases ht0 : t = 0
      · simp [ht0]
      · simp only [if_neg ht0, he]

/-- The store after one alert for `BTC/USDT` at volatility `0.06` was logged. -/
def cdEvent : EventRow :=
  { symbol := "BTC/USDT", price := 106, volatility := 3/50, timestamp := 9000 }

/-- An event log holding only [[cdEvent]]. -/
def cdDB : DB := { price_history := [], event_log := [cdEvent] }

/-- A monitor that alerted for `BTC/USDT` at clock reading 9000. -/
def mCd : MonitorState :=
  { m0 with last_alert_time := fun s => if s = "BTC/USDT" then some 9000 else none }

theorem cooldown_policy_spec_witness :
    is_in_cooldown mCd cdDB false 10000 "BTC/USDT" (2/25) = true :=
  (cooldown_policy_spec mCd cdDB false 10000 "BTC/USDT" (2/25)).1 9000 cdEvent
    (by simp [mCd, m0])
    (by norm_num)
    (by simp [get_last_alert, cdDB, cdEvent])
    (by norm_num [cdEvent, abs_of_nonneg])
    (by norm_num [mCd, m0])

/-- C10: when the event-log query raises during cooldown evaluation,
`get_last_alert` returns `none` and `is_in_cooldown` returns `false`, so a
threshold-exceeding move for a symbol that does have an in-memory last-alert
timestamp still fires its alert — the symbol is neither suppressed nor
skipped (its `last_prices` entry is updated as usual). -/
theorem lookup_failure_fires_spec (env : StepEnv) (m : MonitorState) (db : DB)
    (symbol : String) (data : PriceData) (p t : ℚ) (a : Asset)
    (hfail : env.lookupFail = true)
    (hprice : data.price = some p)
    (hlat : m.last_alert_time symbol = some t)
    (ha : m.assets symbol = some a)
    (hthr : check_threshold m.assets symbol
        (calculate_volatility p ((m.last_prices symbol).getD p)) = true) :
    get_last_alert true db symbol = none
    ∧ is_in_cooldown m db env.lookupFail env.now symbol
        (calculate_volatility p ((m.last_prices symbol).getD p)) = false
    ∧ (process_symbol env m db symbol data).2.2 =
        [{ symbol := symbol, name := a.name, current_price := p,
           last_price := (m.last_prices symbol).getD p,
           volatility := calculate_volatility p ((m.last_prices symbol).getD p),
           timestamp := env.now, level := (a.level).getD "medium",
           threshold := (a.threshold).getD (5/100) }]
    ∧ ((process_symbol env m db symbol data).1).last_prices symbol = some p := by
  have hgla : get_last_alert true db symbol = none := by
    unfold get_last_alert
    rw [if_pos rfl]
  have hcool : is_in_cooldown m db env.lookupFail env.now symbol
      (calculate_volatility p ((m.last_prices symbol).getD p)) = false := by
    unfold is_in_cooldown
    rw [hlat, hfail]
    by_cases ht0 : t = 0
    · simp [ht0]
    · simp only [if_neg ht0, hgla]
  refine ⟨hgla, hcool, ?_, ?_⟩
  · simp only [process_symbol, hprice, hthr, hcool, Bool.not_false, Bool.and_true, if_pos, ha]
  · simp only [process_symbol, hprice, hthr, hcool, Bool.not_false, Bool.and_true, if_pos, ha]
    exact mapUpdate_self _ _ _

/-- A monitor in cooldown state for `BTC/USDT`, used against a failing store. -/
def mLookup : MonitorState :=
  { m0 with last_alert_time := fun s => if s = "BTC/USDT" then some 9990 else none }

/-- An environment whose event-log lookup raises. -/
def envFail : StepEnv :=
  { now := 10000, lookupFail := true, saveFailAlert := false, saveFailMain := false }

theorem lookup_failure_fires_spec_witness :
    (process_symbol envFail mLookup db0 "BTC/USDT" d106).2.2 =
      [{ symbol := "BTC/USDT", name := "Bitcoin", current_price := 106,
         last_price := 100, volatility := 3/50,
         timestamp := 10000, level := "high", threshold := 5/100 }] := by
  have h := lookup_failure_fires_spec envFail mLookup db0 "BTC/USDT" d106 106 9990 btcAsset
    rfl rfl (by simp [mLookup, m0]) (by simp [mLookup, m0, btcAssets])
    (by norm_num [check_threshold, mLookup, m0, btcAssets, btcAsset,
          calculate_volatility, abs_of_nonneg])
  have h3 := h.2.2.1
  norm_num [mLookup, m0, btcAsset, envFail, calculate_volatility] at h3 ⊢
  exact h3

/-- C9: a sample whose symbol is not among the configured assets never
produces an alert (`check_threshold` is `false` for it at any volatility),
yet its `last_prices` entry is still set to the sample price and the sample
is still appended to the price store. -/
theorem unknown_symbol_spec (env : StepEnv) (m : MonitorState) (db : DB)
    (symbol : String) (data : PriceData) (p : ℚ)
    (hna : m.assets symbol = none)
    (hprice : data.price = some p)
    (hsave : env.saveFailMain = false) :
    (∀ v, check_threshold m.assets symbol v = false)
    ∧ (process_symbol env m db symbol data).2.2 = []
    ∧ ((process_symbol env m db symbol data).1).last_prices symbol = some p
    ∧ ((process_symbol env m db symbol data).2.1).price_history =
        ⟨symbol, p, (data.volume_24h).getD 0⟩ :: db.price_history := by
  have hct : ∀ v, check_threshold m.assets symbol v = false := by
    intro v
    unfold check_threshold
    rw [hna]
  refine ⟨hct, ?_, ?_, ?_⟩
  · simp only [process_symbol, hprice, hct, Bool.false_and, if_neg]
    simp
  · simp only [process_symbol, hprice, hct, Bool.false_and, if_neg]
    simp only [Bool.false_eq_true, if_false]
    exact mapUpdate_self _ _ _
  · simp only [process_symbol, hprice, hct, Bool.false_and, if_neg]
    simp only [Bool.false_eq_true, if_false, save_price, hsave]

theorem unknown_symbol_spec_witness :
    ((process_symbol env0 m0 db0 "DOGE" d106).1).last_prices "DOGE" = some 106
    ∧ (process_symbol env0 m0 db0 "DOGE" d106).2.2 = [] := by
  have h := unknown_symbol_spec env0 m0 db0 "DOGE" d106 106
    (by simp [m0, btcAssets]) rfl rfl
  exact ⟨h.2.2.1, h.2.1⟩

/-- A fresh sample at price 101 (a +1 percent move from 100, below the
configured 5 percent threshold). -/
def d101 : PriceData := { price := some 101, volume_24h := some 50 }

/-- C1: evaluation of `Monitor.check_volatility` on a healthy store at the
two concrete inputs that decide the per-call append count.  On the
alert-firing input (`BTC/USDT` moving 100 → 106 against threshold `0.05`,
no cooldown in force) exactly one alert is returned but the sample's price
is appended to the price store twice — once by the `save_price` call inside
the alert branch (monitor.py line 140) and once by the unconditional
`save_price` call (line 150).  On the below-threshold input (100 → 101) no
alert is returned and the sample is appended exactly once.  So the price is
appended once only in the no-alert case, not "exactly once regardless of
alert outcome". -/
theorem save_price_append_count :
    ((check_volatility env0 m0 db0 [("BTC/USDT", d106)]).2.2).length = 1
    ∧ ((check_volatility env0 m0 db0 [("BTC/USDT", d106)]).2.1).price_history =
        [⟨"BTC/USDT", 106, 50⟩, ⟨"BTC/USDT", 106, 50⟩]
    ∧ (check_volatility env0 m0 db0 [("BTC/USDT", d101)]).2.2 = []
    ∧ ((check_volatility env0 m0 db0 [("BTC/USDT", d101)]).2.1).price_history =
        [⟨"BTC/USDT", 101, 50⟩] := by
  refine ⟨?_, ?_, ?_, ?_⟩ <;>
    norm_num [check_volatility, process_symbol, is_in_cooldown, get_last_alert, save_price,
      calculate_volatility, check_threshold, btcAssets, btcAsset, m0, env0, db0, d106, d101,
      mapUpdate, abs_of_nonneg]

-- Helper lemmas describing the three possible outcomes of one loop body.

theorem check_threshold_none (assets : String → Option Asset) (s : String) (v : ℚ)
    (h : assets s = none) : check_threshold assets s v = false := by
  unfold check_threshold
  rw [h]

theorem process_symbol_cases (env : StepEnv) (m : MonitorState) (db : DB)
    (s : String) (d : PriceData) :
    (d.price = none ∧ process_symbol env m db s d = (m, db, []))
    ∨ (∃ p, d.price = some p ∧
        process_symbol env m db s d =
          ({ m with last_prices := mapUpdate m.last_prices s p },
           save_price env.saveFailMain db s p ((d.volume_24h).getD 0), []))
    ∨ (∃ p a, d.price = some p ∧ m.assets s = some a ∧
        process_symbol env m db s d =
          ({ m with
              last_prices := mapUpdate m.last_prices s p,
              last_alert_time := mapUpdate m.last_alert_time s env.now },
           save_price env.saveFailMain
             (save_price env.saveFailAlert db s p ((d.volume_24h).getD 0))
             s p ((d.volume_24h).getD 0),
           [{ symbol := s, name := a.name, current_price := p,
              last_price := (m.last_prices s).getD p,
              volatility := calculate_volatility p ((m.last_prices s).getD p),
              timestamp := env.now, level := (a.level).getD "medium",
              threshold := (a.threshold).getD (5/100) }])) := by
  cases hd : d.price with
  | none =>
    left
    exact ⟨rfl, by simp [process_symbol, hd]⟩
  | some p =>
    by_cases hc : (check_threshold m.assets s (calculate_volatility p ((m.last_prices s).getD p))
        && !(is_in_cooldown m db env.lookupFail env.now s
              (calculate_volatility p ((m.last_prices s).getD p)))) = true
    · cases ha : m.assets s with
      | none =>
        exfalso
        rw [check_threshold_none m.assets s _ ha] at hc
        simp at hc
      | some a =>
        right; right
        exact ⟨p, a, rfl, rfl, by simp only [process_symbol, hd, hc, if_true, ha]⟩
    · right; left
      refine ⟨p, rfl, ?_⟩
      simp only [process_symbol, hd]
      rw [if_neg (by simpa using hc)]

theorem process_symbol_last_prices_self (env : StepEnv) (m : MonitorState) (db : DB)
    (s : String) (d : PriceData) (p : ℚ) (hp : d.price = some p) :
    ((process_symbol env m db s d).1).last_prices s = some p := by
  rcases process_symbol_cases env m db s d with ⟨h0, _⟩ | ⟨p', hp', heq⟩ | ⟨p', a, hp', _, heq⟩
  · rw [hp] at h0; exact absurd h0 (by simp)
  · rw [hp] at hp'
    obtain rfl : p = p' := by injection hp'
    rw [heq]
    exact mapUpdate_self _ _ _
  · rw [hp] at hp'
    obtain rfl : p = p' := by injection hp'
    rw [heq]
    exact mapUpdate_self _ _ _

theorem process_symbol_last_prices_other (env : StepEnv) (m : MonitorState) (db : DB)
    (s : String) (d : PriceData) (s' : String) (h : s' ≠ s) :
    ((process_symbol env m db s d).1).last_prices s' = m.last_prices s' := by
  rcases process_symbol_cases env m db s d with ⟨_, heq⟩ | ⟨p, _, heq⟩ | ⟨p, a, _, _, heq⟩ <;>
    rw [heq]
  · exact mapUpdate_ne _ _ _ _ h
  · exact mapUpdate_ne _ _ _ _ h

theorem process_symbol_alert_time_change (env : StepEnv) (m : MonitorState) (db : DB)
    (s : String) (d : PriceData) (s' : String)
    (hne : ((process_symbol env m db s d).1).last_alert_time s' ≠ m.last_alert_time s') :
    ((process_symbol env m db s d).1).last_alert_time s' = some env.now
    ∧ ∃ a ∈ (process_symbol env m db s d).2.2, a.symbol = s' := by
  rcases process_symbol_cases env m db s d with ⟨_, heq⟩ | ⟨p, _, heq⟩ | ⟨p, a, _, _, heq⟩ <;>
    rw [heq] at hne ⊢
  · exact absurd rfl hne
  · exact absurd rfl hne
  · by_cases hss : s' = s
    · subst hss
      refine ⟨mapUpdate_self _ _ _, ?_⟩
      refine ⟨_, List.mem_singleton_self _, rfl⟩
    · exact absurd (mapUpdate_ne _ _ _ _ hss) hne

-- Unfolding lemmas for the evaluation loop.

theorem check_volatility_nil (env : StepEnv) (m : MonitorState) (db : DB) :
    check_volatility env m db [] = (m, db, []) := rfl

theorem check_volatility_cons (env : StepEnv) (m : MonitorState) (db : DB)
    (k : String) (d : PriceData) (rest : List (String × PriceData)) :
    check_volatility env m db ((k, d) :: rest) =
      ((check_volatility env (process_symbol env m db k d).1
          (process_symbol env m db k d).2.1 rest).1,
       (check_volatility env (process_symbol env m db k d).1
          (process_symbol env m db k d).2.1 rest).2.1,
       (process_symbol env m db k d).2.2
         ++ (check_volatility env (process_symbol env m db k d).1
              (process_symbol env m db k d).2.1 rest).2.2) := rfl

theorem check_volatility_last_prices_not_mem (env : StepEnv) :
    ∀ (l : List (String × PriceData)) (m : MonitorState) (db : DB) (s : String),
      s ∉ l.map Prod.fst →
      ((check_volatility env m db l).1).last_prices s = m.last_prices s := by
  intro l
  induction l with
  | nil => intro m db s _; rfl
  | cons q rest ih =>
    intro m db s h
    obtain ⟨k, d⟩ := q
    simp only [List.map_cons, List.mem_cons] at h
    push_neg at h
    rw [check_volatility_cons]
    dsimp only
    rw [ih _ _ _ h.2]
    exact process_symbol_last_prices_other env m db k d s h.1

/-- C5: over one evaluation pass on a price map with distinct symbols,
`last_prices[symbol]` ends up equal to the fresh sample's price for every
symbol whose sample carries a price (per-symbol processing that raises is
the missing-price case, which is skipped), and `last_alert_time[symbol]` is
changed only if an alert for that symbol is among the alerts returned by
the pass, in which case its new value is the current clock reading. -/
theorem monitor_state_update_spec (env : StepEnv) :
    ∀ (l : List (String × PriceData)) (m : MonitorState) (db : DB),
      (l.map Prod.fst).Nodup →
      ((∀ s d p, (s, d) ∈ l → d.price = some p →
          ((check_volatility env m db l).1).last_prices s = some p)
       ∧ (∀ s, ((check_volatility env m db l).1).last_alert_time s ≠ m.last_alert_time s →
          ((check_volatility env m db l).1).last_alert_time s = some env.now
          ∧ ∃ a ∈ (check_volatility env m db l).2.2, a.symbol = s)) := by
  intro l
  induction l with
  | nil =>
    intro m db _
    exact ⟨fun s d p hmem _ => absurd hmem (by simp), fun s hne => absurd rfl hne⟩
  | cons q rest ih =>
    intro m db hnd
    obtain ⟨k, d⟩ := q
    simp only [List.map_cons, List.nodup_cons] at hnd
    obtain ⟨hk, hnd'⟩ := hnd
    have IH := ih (process_symbol env m db k d).1 (process_symbol env m db k d).2.1 hnd'
    constructor
    · intro s d' p hmem hp
      rw [check_volatility_cons]
      dsimp only
      rcases List.mem_cons.mp hmem with hhead | htail
      · simp only [Prod.mk.injEq] at hhead
        obtain ⟨rfl, rfl⟩ := hhead
        rw [check_volatility_last_prices_not_mem env rest _ _ s (by simpa using hk)]
        exact process_symbol_last_prices_self _ _ _ _ _ _ hp
      · exact IH.1 s d' p htail hp
    · intro s hne
      rw [check_volatility_cons] at hne ⊢
      dsimp only at hne ⊢
      by_cases hmid :
          ((check_volatility env (process_symbol env m db k d).1
              (process_symbol env m db k d).2.1 rest).1).last_alert_time s
            = ((process_symbol env m db k d).1).last_alert_time s
      · rw [hmid] at hne ⊢
        obtain ⟨hval, a, hmem, hsym⟩ := process_symbol_alert_time_change env m db k d s hne
        exact ⟨hval, a, List.mem_append_left _ hmem, hsym⟩
      · obtain ⟨hval, a, hmem, hsym⟩ := IH.2 s hmid
        exact ⟨hval, a, List.mem_append_right _ hmem, hsym⟩

theorem monitor_state_update_spec_witness :
    ((check_volatility env0 m0 db0 [("BTC/USDT", d106)]).1).last_prices "BTC/USDT" = some 106 :=
  (monitor_state_update_spec env0 [("BTC/USDT", d106)] m0 db0 (by simp)).1
    "BTC/USDT" d106 106 (by simp) rfl

/-- C7: the daily change reported for a yfinance-sourced instrument: with at
least two daily rows available it is `(latestClose - prevClose) / prevClose`
computed from the two most recent closes, and with a single day of data it
is `(close - open) / open` of that one day — never a read of a missing prior
close. -/
theorem traditional_change_spec (symbol : String) (info : List Bar) :
    (∀ latest prev, info.getLast? = some latest → 2 ≤ info.length →
        info[info.length - 2]? = some prev → prev.closePrice ≠ 0 →
        fetch_traditional_price symbol info =
          some { symbol := symbol, price := latest.closePrice,
                 change_24h := (latest.closePrice - prev.closePrice) / prev.closePrice,
                 high_24h := latest.highPrice, low_24h := latest.lowPrice,
                 volume_24h := (latest.volume).getD 0, source := "yfinance" })
    ∧ (∀ latest, info = [latest] → latest.openPrice ≠ 0 →
        fetch_traditional_price symbol info =
          some { symbol := symbol, price := latest.closePrice,
                 change_24h := (latest.closePrice - latest.openPrice) / latest.openPrice,
                 high_24h := latest.highPrice, low_24h := latest.lowPrice,
                 volume_24h := (latest.volume).getD 0, source := "yfinance" }) := by
  constructor
  · intro latest prev hlast hlen hprev hc
    simp [fetch_traditional_price, hlast, hlen, hprev, hc]
  · intro latest hinfo hopen
    subst hinfo
    simp [fetch_traditional_price, hopen]

/-- The single daily bar of a one-day history. -/
def bar1 : Bar :=
  { openPrice := 100, closePrice := 102, highPrice := 103, lowPrice := 99, volume := some 10 }

/-- A second, more recent daily bar. -/
def bar2 : Bar :=
  { openPrice := 102, closePrice := 105, highPrice := 106, lowPrice := 101, volume := some 12 }

theorem traditional_change_spec_witness :
    fetch_traditional_price "GC=F" [bar1, bar2] =
      some { symbol := "GC=F", price := bar2.closePrice,
             change_24h := (bar2.closePrice - bar1.closePrice) / bar1.closePrice,
             high_24h := bar2.highPrice, low_24h := bar2.lowPrice,
             volume_24h := (bar2.volume).getD 0, source := "yfinance" } :=
  (traditional_change_spec "GC=F" [bar1, bar2]).1 bar2 bar1
    (by simp) (by simp) (by simp) (by norm_num [bar1])

-- Helper lemmas for the fetch orchestrator.

theorem fetch_asset_symbol (symbol : String) (resp : SourceResponse) (r : FetchResult)
    (h : fetch_asset symbol resp = .ok (some r)) : r.symbol = symbol := by
  cases resp with
  | cryptoTicker en t =>
    cases t with
    | none => simp [fetch_asset, fetch_crypto_price] at h
    | some t =>
      simp only [fetch_asset, fetch_crypto_price, Except.ok.injEq, Option.some.injEq] at h
      rw [← h]
  | yfinanceInfo info =>
    cases hl : info.getLast? with
    | none => simp [fetch_asset, fetch_traditional_price, hl] at h
    | some latest =>
      simp only [fetch_asset, fetch_traditional_price, hl, Except.ok.injEq,
        Option.some.injEq] at h
      rw [← h]
  | unsupported => simp [fetch_asset] at h

theorem dictInsert_not_mem (d : List (String × FetchResult)) (k : String) (v : FetchResult)
    (h : k ∉ d.map Prod.fst) : dictInsert d k v = d ++ [(k, v)] := by
  unfold dictInsert
  rw [if_neg]
  intro hany
  apply h
  obtain ⟨x, hx, hbeq⟩ := List.any_eq_true.mp hany
  exact List.mem_map.mpr ⟨x, hx, by simpa using hbeq⟩

theorem fetch_all_go_keys :
    ∀ (batch : List (String × SourceResponse)) (acc : List (String × FetchResult)),
      (∀ p ∈ batch, p.1 ∉ acc.map Prod.fst) → (batch.map Prod.fst).Nodup →
      (fetch_all_go acc batch).map Prod.fst
        = acc.map Prod.fst ++ (batch.filter fetchSucceeds).map Prod.fst := by
  intro batch
  induction batch with
  | nil => intro acc _ _; simp [fetch_all_go]
  | cons p rest ih =>
    intro acc hdisj hnd
    simp only [List.map_cons, List.nodup_cons] at hnd
    obtain ⟨hp1, hnd'⟩ := hnd
    cases hfa : fetch_asset p.1 p.2 with
    | error e =>
      have hs : fetchSucceeds p = false := by simp [fetchSucceeds, hfa]
      rw [show fetch_all_go acc (p :: rest) = fetch_all_go acc rest from by
        simp [fetch_all_go, hfa]]
      rw [List.filter_cons, hs]
      simp only [Bool.false_eq_true, if_false]
      exact ih acc (fun q hq => hdisj q (List.mem_cons_of_mem _ hq)) hnd'
    | ok o =>
      cases o with
      | none =>
        have hs : fetchSucceeds p = false := by simp [fetchSucceeds, hfa]
        rw [show fetch_all_go acc (p :: rest) = fetch_all_go acc rest from by
          simp [fetch_all_go, hfa]]
        rw [List.filter_cons, hs]
        simp only [Bool.false_eq_true, if_false]
        exact ih acc (fun q hq => hdisj q (List.mem_cons_of_mem _ hq)) hnd'
      | some r =>
        have hsym : r.symbol = p.1 := fetch_asset_symbol _ _ _ hfa
        have hs : fetchSucceeds p = true := by simp [fetchSucceeds, hfa]
        have hknot : r.symbol ∉ acc.map Prod.fst := by
          rw [hsym]
          exact hdisj p (List.mem_cons_self _ _)
        rw [show fetch_all_go acc (p :: rest) = fetch_all_go (dictInsert acc r.symbol r) rest
          from by simp [fetch_all_go, hfa]]
        rw [dictInsert_not_mem acc r.symbol r hknot]
        rw [ih (acc ++ [(r.symbol, r)]) ?_ hnd']
        · rw [List.filter_cons, hs]
          simp only [if_true, List.map_append, List.map_cons, List.map_nil, hsym]
          simp [List.append_assoc]
        · intro q hq
          simp only [List.map_append, List.map_cons, List.map_nil, List.mem_append,
            List.mem_singleton, not_or]
          refine ⟨hdisj q (List.mem_cons_of_mem _ hq), ?_⟩
          rw [hsym]
          intro hqp
          exact hp1 (hqp ▸ List.mem_map.mpr ⟨q, hq, rfl⟩)

/-- C6: over a batch of instruments with pairwise-distinct symbols where
some fetches fail (adapter returned `None` or the task raised), `fetch_all`
returns a map whose keys are exactly the symbols of the succeeding
instruments in order, whose size plus the number of failures is the batch
size (exactly `N - M` entries), and in which every failed instrument's
symbol is absent.  No exception escapes: `fetch_all` is a total function of
the batch and its upstream responses, raised tasks being reified by
`gather(return_exceptions=True)` and skipped. -/
theorem fetch_all_partial_spec (batch : List (String × SourceResponse))
    (hnd : (batch.map Prod.fst).Nodup) :
    (fetch_all batch).map Prod.fst = (batch.filter fetchSucceeds).map Prod.fst
    ∧ (fetch_all batch).length + (batch.countP fun p => !(fetchSucceeds p)) = batch.length
    ∧ (∀ p ∈ batch, fetchSucceeds p = false → p.1 ∉ (fetch_all batch).map Prod.fst) := by
  have hkeys : (fetch_all batch).map Prod.fst = (batch.filter fetchSucceeds).map Prod.fst :=
    fetch_all_go_keys batch [] (by simp) hnd
  refine ⟨hkeys, ?_, ?_⟩
  · have h1 : (fetch_all batch).length = (batch.filter fetchSucceeds).length := by
      rw [← List.length_map (fetch_all batch) Prod.fst, hkeys, List.length_map]
    rw [h1, ← List.countP_eq_length_filter]
    have h2 := List.length_eq_countP_add_countP fetchSucceeds (l := batch)
    simpa using h2.symm
  · intro p hp hfalse hmem
    rw [hkeys] at hmem
    obtain ⟨q, hqmem, hq1⟩ := List.mem_map.mp hmem
    obtain ⟨hqb, hqs⟩ := List.mem_filter.mp hqmem
    have hqp : q = p := List.inj_on_of_nodup_map hnd hqb hp hq1
    rw [hqp] at hqs
    rw [hfalse] at hqs
    exact absurd hqs (by simp)

/-- A ccxt ticker for the witness batch. -/
def tick0 : Ticker := { last := 106, percentage := some 6, high := 107, low := 99, baseVolume := 50 }

/-- A two-instrument batch whose second instrument has an unsupported source
and therefore fails. -/
def c6Batch : List (String × SourceResponse) :=
  [("BTC/USDT", .cryptoTicker "binance" (some tick0)), ("GC=F", .unsupported)]

theorem fetch_all_partial_spec_witness :
    (fetch_all c6Batch).map Prod.fst = (c6Batch.filter fetchSucceeds).map Prod.fst
    ∧ (fetch_all c6Batch).length + (c6Batch.countP fun p => !(fetchSucceeds p)) = c6Batch.length
    ∧ (∀ p ∈ c6Batch, fetchSucceeds p = false → p.1 ∉ (fetch_all c6Batch).map Prod.fst) :=
  fetch_all_partial_spec c6Batch (by simp [c6Batch])

end Gaia
